import Mathlib

/-!
Verification of the redo build engine (src/deps.go, src/redo.go) against its
specification.  The Go code is shallowly embedded: the filesystem is a read
snapshot (`FS`), stateful parts pass an explicit session (`Sess`), machine
strings are Lean `String`s, and fallible code returns `Except`.

Abstractions, stated once here:
* `os.Stat` I/O errors other than not-exist are outside the model (a pure
  snapshot either has a path or does not), matching the spec's determinism
  property 8.1.
* `FS.hashFile` / `FS.hashDir` abstract `MD5SumFile` / `MD5SumDir`; the
  internal structure of the directory digest is modelled concretely further
  below (`MD5SumDir` over entry lists) for the digest claims.
* Inside the freshness walker, the outcome of `(*Node).build` on a path is
  given by an oracle `Env.buildRes`, and every invocation of `build` is
  recorded in the session trace; `build`'s own internal sequence (lock,
  prereq record, recipe spawn, output commit) is modelled separately as the
  pure function `build` over a `RecipeBehavior` describing what the opaque
  recipe executable did.
* `(*Node).Lock`'s poll loop ("sleep until the lock file disappears") is
  modelled by its exit value: an initially present lock file yields
  `done = true`, as the loop only terminates that way.
-/

/-- Error kinds of the engine (spec section 7). `panicIndex` models a Go
out-of-bounds slice index (a runtime panic), `outOfFuel` is the fuel bound of
the embedding standing for unbounded recursion. -/
inductive RErr where
  | missingRecipe (path : String)
  | formatErr (verb : String)
  | hashDrift
  | ioError
  | recipeFailed
  | doubleWrite
  | sourceNotTarget (arg : String)
  | panicIndex
  | outOfFuel
deriving DecidableEq

/-- A read snapshot of the filesystem, as consulted by the Go code through
`os.Stat`, `os.Open`+`bufio.Scanner`, and the MD5 digesters. -/
structure FS where
  statExists : String → Bool
  statIsDir : String → Bool
  statMtime : String → Int
  hashFile : String → String
  hashDir : String → String
  readLines : String → Option (List String)

/-- A node in the dependency graph (struct `Node` in deps.go). -/
structure Node where
  Dir : String
  File : String
  DoScript : String
  IsTarget : Bool
  Exists : Bool
  IsDir : Bool
  UsesDefaultDo : Bool
deriving DecidableEq

/-- `filepath.Split`: split after the final separator; the directory part
keeps its trailing slash. -/
def splitPath (path : String) : String × String :=
  let r := path.data.reverse
  (String.mk ((r.dropWhile (fun c => c ≠ '/')).reverse),
   String.mk ((r.takeWhile (fun c => c ≠ '/')).reverse))

/-- `filepath.Ext`: the suffix starting at the final dot, empty if none.
Arguments come from the file component of `splitPath`, so contain no slash. -/
def extOf (f : String) : String :=
  let r := f.data.reverse
  if r.any (fun c => c = '.') then
    String.mk ('.' :: ((r.takeWhile (fun c => c ≠ '.')).reverse))
  else ""

/-- `strings.Split(s, "\t")`: split at every tab; `n` tabs give `n + 1`
fields, the empty string gives `[""]`. -/
def splitTabList : List Char → List (List Char)
  | [] => [[]]
  | c :: rest =>
    let r := splitTabList rest
    if c = '\t' then [] :: r
    else
      match r with
      | h :: t => (c :: h) :: t
      | [] => [[c]]

/-- Field list of one prereqs line, as `strings.Split(line, "\t")`. -/
def splitTab (s : String) : List String := (splitTabList s.data).map String.mk

/-- `NewNode` (deps.go:27-72): classify a path, mirroring the source's
sequence of stats and field updates, ending with the
"has .prereqs but no do exec" check. -/
def NewNode (fs : FS) (path : String) : Except RErr Node :=
  let dir := (splitPath path).1
  let file := (splitPath path).2
  let n : Node := ⟨dir, file, "", false, false, false, false⟩
  let n := if fs.statExists (path ++ ".prereqs") then { n with IsTarget := true } else n
  let n := if fs.statExists path then
      { n with Exists := true, IsDir := fs.statIsDir path } else n
  let n :=
    if fs.statExists (path ++ ".do") then
      { n with IsTarget := true, DoScript := file ++ ".do" }
    else if fs.statExists (dir ++ "default" ++ extOf file ++ ".do") then
      { n with UsesDefaultDo := true, DoScript := "default" ++ extOf file ++ ".do",
               IsTarget := true }
    else n
  if n.IsTarget && n.DoScript == "" then .error (.missingRecipe path)
  else .ok n

/-- Modelled from the spec's words (section 3, "Node classification", rules
1-5, evaluated in order): the flat classification rules, to be compared with
the source-derived `NewNode` for the resolution claim. -/
def classifySpec (fs : FS) (path : String) : Except RErr Node :=
  let dir := (splitPath path).1
  let file := (splitPath path).2
  let ex := fs.statExists path
  let isDir := ex && fs.statIsDir path
  if fs.statExists (path ++ ".do") then
    .ok ⟨dir, file, file ++ ".do", true, ex, isDir, false⟩
  else if fs.statExists (dir ++ "default" ++ extOf file ++ ".do") then
    .ok ⟨dir, file, "default" ++ extOf file ++ ".do", true, ex, isDir, true⟩
  else if fs.statExists (path ++ ".prereqs") then
    .error (.missingRecipe path)
  else
    .ok ⟨dir, file, "", false, ex, isDir, false⟩

/-- `(*Node).Hash` (deps.go:222-228): directory digest for directories, file
digest otherwise. -/
def Node.Hash (fs : FS) (n : Node) : String :=
  if n.IsDir then fs.hashDir (n.Dir ++ n.File) else fs.hashFile (n.Dir ++ n.File)

/-- `(*Node).HashChanged` (deps.go:214-220). -/
def Node.HashChanged (fs : FS) (n : Node) (lastHash : String) : Bool :=
  Node.Hash fs n != lastHash

/-- `(*Node).RedoIfCreate` (deps.go:168-177): has the file come into
existence. -/
def Node.RedoIfCreate (fs : FS) (n : Node) : Bool :=
  fs.statExists (n.Dir ++ n.File)

/-- The shared session: the `context.WithCancelCause` cancellation cause
(first error wins) and, for observation, the trace of paths on which
`(*Node).build` was invoked. -/
structure Sess where
  canceled : Option RErr
  trace : List String
deriving DecidableEq

/-- `context.CancelCauseFunc`: record the cause only if none is set yet. -/
def cancelCause (e : RErr) (s : Sess) : Sess :=
  match s.canceled with
  | some _ => s
  | none => { s with canceled := some e }

/-- The walker's environment: the filesystem snapshot and the outcome oracle
for `(*Node).build` (whose internals are modelled separately as `build`). -/
structure Env where
  fs : FS
  buildRes : String → Except RErr Unit

/-- One invocation of `(*Node).build` as seen from the walker: the call is
recorded in the trace, its outcome comes from the oracle. -/
def callBuild (env : Env) (n : Node) (s : Sess) : Except RErr Unit × Sess :=
  (env.buildRes (n.Dir ++ n.File),
   { s with trace := s.trace ++ [n.Dir ++ n.File] })

/-- One iteration of the prereqs-scanning loop of `RedoIfChange`
(deps.go:99-155), on the line `l`, carrying the accumulated `changed` flag
and the sub-walks scheduled so far on existing targets (`pending`).  An
out-of-range field access models the corresponding Go slice-index panic. -/
def processLine (env : Env) (n : Node) (l : String) (changed : Bool)
    (pending : List Node) (s : Sess) : Except RErr (Bool × List Node) × Sess :=
  let fields := splitTab l
  match fields[1]? with
  | none => (.error .panicIndex, s)
  | some verb =>
    if verb = "ifcreate" then
      match fields[0]? with
      | none => (.error .panicIndex, s)
      | some dep =>
        match NewNode env.fs (n.Dir ++ dep) with
        | .error e => (.error e, s)
        | .ok o =>
          (.ok (changed || Node.RedoIfCreate env.fs o, pending), s)
    else if verb ≠ "ifchange" then (.error (.formatErr verb), s)
    else
      match fields[0]? with
      | none => (.error .panicIndex, s)
      | some dep =>
        match NewNode env.fs (n.Dir ++ dep) with
        | .error e => (.error e, s)
        | .ok o =>
          if !o.IsTarget then
            match fields[2]? with
            | none => (.error .panicIndex, s)
            | some digest =>
              (.ok (changed || Node.HashChanged env.fs o digest, pending), s)
          else if !o.Exists then
            match callBuild env o s with
            | (.error e, s1) => (.error e, s1)
            | (.ok _, s1) => (.ok (true, pending), s1)
          else
            match fields[2]? with
            | none => (.error .panicIndex, s)
            | some digest =>
              if Node.HashChanged env.fs o digest then (.error .hashDrift, s)
              else (.ok (changed, pending ++ [o]), s)

/-- The prereqs-scanning loop of `RedoIfChange` (deps.go:99-155): fold
`processLine` over the record's lines, stopping at the first error. -/
def processLines (env : Env) (n : Node) :
    List String → Bool → List Node → Sess → Except RErr (Bool × List Node) × Sess
  | [], changed, pending, s => (.ok (changed, pending), s)
  | l :: rest, changed, pending, s =>
    match processLine env n l changed pending s with
    | (.error e, s1) => (.error e, s1)
    | (.ok (c1, p1), s1) => processLines env n rest c1 p1 s1

/-- The join of the scheduled sub-walks (the goroutines of deps.go:146-156,
run here in scheduling order): each sub-walk's `changed` result is discarded
as in the source (`_, err = n.RedoIfChange(...)`), an error becomes the
session's cancellation cause. -/
def runPendingWith (walk : Node → Sess → Except RErr Bool × Sess) :
    List Node → Sess → Sess
  | [], s => s
  | o :: rest, s =>
    let p := walk o s
    runPendingWith walk rest
      (match p.1 with
       | .error e => cancelCause e p.2
       | .ok _ => p.2)

/-- `(*Node).RedoIfChange` (deps.go:76-164).  `fuel` bounds the recursion
depth of the embedding (the source recurses unboundedly; cycles are not
detected). -/
def RedoIfChange : Nat → Env → Node → Sess → Except RErr Bool × Sess
  | 0, _, _, s => (.error .outOfFuel, s)
  | fuel + 1, env, n, s =>
    match s.canceled with
    | some e => (.error e, s)
    | none =>
      if !n.IsTarget then (.ok false, s)
      else if !n.Exists then
        match callBuild env n s with
        | (.error e, s1) => (.error e, s1)
        | (.ok _, s1) => (.ok true, s1)
      else
        match env.fs.readLines (n.Dir ++ n.File ++ ".prereqs") with
        | none => (.error .ioError, s)
        | some lines =>
          match processLines env n lines false [] s with
          | (.error e, s1) => (.error e, s1)
          | (.ok (changed, pending), s1) =>
            let s2 := runPendingWith (fun o st => RedoIfChange fuel env o st) pending s1
            if changed then
              match callBuild env n s2 with
              | (.error e, s3) => (.error e, s3)
              | (.ok _, s3) => (.ok true, s3)
            else (.ok false, s2)

/-- `(*Node).Lock` (deps.go:362-386), decision only (`true` = `done`): an
existing lock file means another builder owns the target (the poll loop exits
with `done = true` once it disappears); otherwise a prereqs file stamped
after `RedoTreeTime` means this session already rebuilt the target; otherwise
the lock is created and held. -/
def Lock (fs : FS) (treeTime : Int) (n : Node) : Bool :=
  if fs.statExists (n.Dir ++ n.File ++ ".lock") then true
  else if fs.statExists (n.Dir ++ n.File ++ ".prereqs") &&
      decide (treeTime < fs.statMtime (n.Dir ++ n.File ++ ".prereqs")) then true
  else false

/-- What the opaque recipe executable did during `c.Run()`: its exit status,
the size of the captured stdout sink, and whether it created the `$3` file. -/
structure RecipeBehavior where
  exitOk : Bool
  stdoutSize : Nat
  arg3Created : Bool
deriving DecidableEq

/-- How `build` publishes the artifact: not at all, by renaming the stdout
sink over the target, or by renaming the `$3` file over the target. -/
inductive Commit where
  | noRename
  | renameStdout
  | renameArg3
deriving DecidableEq

deriving instance DecidableEq for Except

/-- Observable outcome of one `(*Node).build` call: its returned error,
whether the recipe process was spawned, the prereq record written (`none`
when the file was not even truncated), and the commit action. -/
structure BuildOut where
  result : Except RErr Unit
  recipeRan : Bool
  record : Option (List String)
  commit : Commit
deriving DecidableEq

/-- `(*Node).build` (deps.go:231-360): lock (early return when done),
truncate the prereq record and write the recipe's own `ifchange` line (plus
the `ifcreate` line for the non-default recipe name under a default recipe),
spawn the recipe, then commit exactly one output channel.  Environment
handoff (`REDOPARENT`) and the argv are not part of the modelled
observables. -/
def build (fs : FS) (treeTime : Int) (recipe : RecipeBehavior) (n : Node) : BuildOut :=
  if Lock fs treeTime n then
    ⟨.ok (), false, none, .noRename⟩
  else
    match NewNode fs (n.Dir ++ n.DoScript) with
    | .error _ => ⟨.error .ioError, false, some [], .noRename⟩
    | .ok dn =>
      let line1 := dn.File ++ "\tifchange\t" ++ Node.Hash fs dn
      let rec2 :=
        if n.UsesDefaultDo then [line1, n.File ++ ".do\tifcreate"] else [line1]
      if !recipe.exitOk then
        ⟨.error .recipeFailed, true, some rec2, .noRename⟩
      else if recipe.arg3Created && decide (0 < recipe.stdoutSize) then
        ⟨.error .doubleWrite, true, some rec2, .noRename⟩
      else if decide (0 < recipe.stdoutSize) then
        ⟨.ok (), true, some rec2, .renameStdout⟩
      else if recipe.arg3Created then
        ⟨.ok (), true, some rec2, .renameArg3⟩
      else
        ⟨.ok (), true, some rec2, .noRename⟩

/-- The argument loop of the later `main`'s `redo` case (redo.go:202-220):
resolve each argument, require a target, run the freshness walker; a
resolution failure or source argument sets the cancellation cause and stops
the loop (`break`); walker errors become the cancellation cause.  No further
build is invoked by the dispatcher itself. -/
def redoLoop (fuel : Nat) (env : Env) : List String → Sess → Sess
  | [], s => s
  | arg :: rest, s =>
    match NewNode env.fs arg with
    | .error e => cancelCause e s
    | .ok n =>
      if !n.IsTarget then cancelCause (.sourceNotTarget arg) s
      else
        let p := RedoIfChange fuel env n s
        redoLoop fuel env rest
          (match p.1 with
           | .error e => cancelCause e p.2
           | .ok _ => p.2)

/-- The `redo` entry point of the later `main` (redo.go:200-221, 303-308):
after `wg.Wait()` the switch falls through to `return`, so the process exit
code is 0 on this branch whether or not a cancellation cause was set. -/
def redoMain (fuel : Nat) (env : Env) (args : List String) (s : Sess) : Nat × Sess :=
  (0, redoLoop fuel env args s)

/-- One directory entry seen by `filepath.Walk` under the digest root:
relative path, contents (byte list), regular-file bit, and mtime (present to
state that it cannot matter). -/
structure Entry where
  path : String
  contents : List Nat
  isRegular : Bool
  mtime : Int
deriving DecidableEq

/-- `walkFiles` (redo.go:342-365): keep exactly the regular files, in walk
order. -/
def walkFiles (entries : List Entry) : List Entry :=
  entries.filter (fun e => e.isRegular)

/-- `md5All` (redo.go:398-435): the map from file path to the MD5 sum of the
file's contents, represented as an association list (paths under one root
are distinct, so insertion order carries no information).  The digest
function itself is a parameter of the model. -/
def md5All (md5 : List Nat → List Nat) (entries : List Entry) : List (String × List Nat) :=
  (walkFiles entries).map (fun e => (e.path, md5 e.contents))

/-- The byte stream `io.WriteString` contributes for a path. -/
def strBytes (s : String) : List Nat := s.data.map Char.toNat

/-- `MD5SumDir` (redo.go:438-457): sort the map's keys (`sort.Strings`,
modelled by insertion sort), then feed the digest, per path in sorted order,
with the path bytes followed by that file's hash bytes. -/
def MD5SumDir (md5 : List Nat → List Nat) (entries : List Entry) : List Nat :=
  let ms := md5All md5 entries
  let paths := List.insertionSort (fun a b => a ≤ b) (ms.map Prod.fst)
  md5 (paths.foldl (fun acc p => acc ++ strBytes p ++ ((ms.lookup p).getD [])) [])

/-- Fixture helper: a filesystem snapshot from an existence list, a file-hash
table, and a prereqs-content table; everything is a plain non-directory file
with mtime 0. -/
def mkFS (ex : List String) (hf : String → String)
    (rl : String → Option (List String)) : FS :=
  { statExists := fun p => ex.contains p
    statIsDir := fun _ => false
    statMtime := fun _ => 0
    hashFile := hf
    hashDir := fun _ => "dh"
    readLines := rl }

/-- Fixture: target `p` depends on existing target `t` (recorded hash still
matching), and `t` depends on source `s` whose content changed, so the
sub-walk on `t` rebuilds and reports `changed = true`. -/
def c1fs : FS :=
  mkFS ["p", "p.prereqs", "p.do", "t", "t.prereqs", "t.do", "s"]
    (fun p => if p = "t" then "ht" else if p = "s" then "new" else "h0")
    (fun p =>
      if p = "p.prereqs" then some ["t\tifchange\tht"]
      else if p = "t.prereqs" then some ["s\tifchange\told"]
      else none)

def c1env : Env := ⟨c1fs, fun _ => .ok ()⟩

def c1p : Node := ⟨"", "p", "p.do", true, true, false, false⟩

def c1t : Node := ⟨"", "t", "t.do", true, true, false, false⟩

/-- Fixture: target `t` fully up to date (its one source dependency has the
recorded hash). -/
def c2fs : FS :=
  mkFS ["t", "t.prereqs", "t.do", "s"]
    (fun p => if p = "s" then "hs" else "h0")
    (fun p => if p = "t.prereqs" then some ["s\tifchange\ths"] else none)

def c2env : Env := ⟨c2fs, fun _ => .ok ()⟩

def c2t : Node := ⟨"", "t", "t.do", true, true, false, false⟩

/-- Fixture: `s` is a plain source (no recipe, no prereqs). -/
def c7fs : FS := mkFS ["s"] (fun _ => "h0") (fun _ => none)

def c7env : Env := ⟨c7fs, fun _ => .ok ()⟩

/-- Fixture: `p`'s record holds the two-field line `x\tifchange` where `x`
is a target that does not exist on disk. -/
def c10fs : FS :=
  mkFS ["p", "p.prereqs", "p.do", "x.do"] (fun _ => "h0")
    (fun p => if p = "p.prereqs" then some ["x\tifchange"] else none)

def c10env : Env := ⟨c10fs, fun _ => .ok ()⟩

def c10p : Node := ⟨"", "p", "p.do", true, true, false, false⟩

/-- Fixture: `q`'s record holds one blank line. -/
def w10fs : FS :=
  mkFS ["q", "q.prereqs", "q.do"] (fun _ => "h0")
    (fun p => if p = "q.prereqs" then some [""] else none)

def w10env : Env := ⟨w10fs, fun _ => .ok ()⟩

def w10q : Node := ⟨"", "q", "q.do", true, true, false, false⟩

/-- Fixture: `p` records dependency `t` with hash `old`, but `t`'s current
content hash is `new`: external mutation, hash drift. -/
def w3fs : FS :=
  mkFS ["p", "p.prereqs", "p.do", "t", "t.prereqs", "t.do"]
    (fun p => if p = "t" then "new" else "h0")
    (fun p => if p = "p.prereqs" then some ["t\tifchange\told"] else none)

def w3env : Env := ⟨w3fs, fun _ => .ok ()⟩

def w3p : Node := ⟨"", "p", "p.do", true, true, false, false⟩

def w3t : Node := ⟨"", "t", "t.do", true, true, false, false⟩

/-- Fixture: an unlocked, never-built target `n` whose recipe writes both
output channels. -/
def w4fs : FS := mkFS ["n.do"] (fun _ => "h0") (fun _ => none)

def w4n : Node := ⟨"", "n", "n.do", true, false, false, false⟩

def w4dn : Node := ⟨"", "n.do", "", false, true, false, false⟩

/-- Fixture: target `f.txt` built by the default recipe `default.txt.do`. -/
def w5fs : FS :=
  mkFS ["default.txt.do"]
    (fun p => if p = "default.txt.do" then "hd" else "h0") (fun _ => none)

def w5n : Node := ⟨"", "f.txt", "default.txt.do", true, false, false, true⟩

/-- Fixture: target `n` whose lock file is held by another builder. -/
def w6fs : FS := mkFS ["n.lock"] (fun _ => "h0") (fun _ => none)

def w6n : Node := ⟨"", "n", "n.do", true, false, false, false⟩

/-- Fixture: two directory listings with the same set of regular
`(path, contents)` pairs, in different walk order, with different mtimes and
an extra non-regular entry. -/
def w8a : List Entry := [⟨"a", [1], true, 0⟩, ⟨"b", [2], true, 0⟩]

def w8b : List Entry := [⟨"b", [2], true, 5⟩, ⟨"c", [7], false, 0⟩, ⟨"a", [1], true, 3⟩]

theorem str_append_data (a b : String) : (a ++ b).data = a.data ++ b.data := rfl

theorem mk_append (l1 l2 : List Char) :
    String.mk l1 ++ String.mk l2 = String.mk (l1 ++ l2) := rfl

theorem splitPath_concat (p : String) : (splitPath p).1 ++ (splitPath p).2 = p := by
  show String.mk _ ++ String.mk _ = p
  rw [mk_append, ← List.reverse_append, List.takeWhile_append_dropWhile,
    List.reverse_reverse]

theorem beq_empty_eq_false {a : String} (h : a.data ≠ []) : (a == "") = false := by
  refine beq_eq_false_iff_ne.mpr ?_
  intro he
  exact h (by rw [he])

theorem doScript_beq_empty (f : String) : ((f ++ ".do") == "") = false := by
  refine beq_empty_eq_false ?_
  rw [str_append_data]
  intro h
  exact absurd (List.append_eq_nil.mp h).2 (by decide)

theorem defaultDo_beq_empty (e : String) :
    (("default" ++ (e ++ ".do")) == "") = false := by
  refine beq_empty_eq_false ?_
  rw [str_append_data]
  intro h
  exact absurd (List.append_eq_nil.mp h).1 (by decide)

theorem NewNode_ok {fs : FS} {path : String} {o : Node}
    (h : NewNode fs path = .ok o) :
    o.Dir ++ o.File = path ∧ o.Exists = fs.statExists path := by
  cases h1 : fs.statExists (path ++ ".prereqs") <;>
    cases h2 : fs.statExists path <;>
    cases h3 : fs.statExists (path ++ ".do") <;>
    cases h4 : fs.statExists
      ((splitPath path).1 ++ "default" ++ extOf (splitPath path).2 ++ ".do") <;>
    simp [NewNode, h1, h2, h3, h4, doScript_beq_empty, defaultDo_beq_empty] at h <;>
    first
    | exact absurd h (by simp)
    | (subst h; exact ⟨splitPath_concat path, by simp [h2]⟩)

/-- Claim C9: node resolution (`NewNode`) fails exactly when a
`<path>.prereqs` file exists and neither a co-located `<path>.do` recipe nor
a matching `default<ext>.do` recipe exists; in every other filesystem state
it returns a node whose `IsTarget`, `DoScript`, `Exists`, `IsDir` fields
follow the spec's classification rules (stated as agreement with
`classifySpec`, modelled from the spec's words). -/
theorem resolve_classification (fs : FS) (path : String) :
    NewNode fs path = classifySpec fs path ∧
    ((∃ e, NewNode fs path = .error e) ↔
      (fs.statExists (path ++ ".prereqs") = true ∧
       fs.statExists (path ++ ".do") = false ∧
       fs.statExists
         ((splitPath path).1 ++ "default" ++ extOf (splitPath path).2 ++ ".do") =
         false)) := by
  cases h1 : fs.statExists (path ++ ".prereqs") <;>
    cases h2 : fs.statExists path <;>
    cases h3 : fs.statExists (path ++ ".do") <;>
    cases h4 : fs.statExists
      ((splitPath path).1 ++ "default" ++ extOf (splitPath path).2 ++ ".do") <;>
    simp [NewNode, classifySpec, h1, h2, h3, h4, doScript_beq_empty,
      defaultDo_beq_empty]

theorem processLine_trace (env : Env) (n : Node) (l : String) (c : Bool)
    (p : List Node) (s : Sess) :
    ∀ q, q ∈ (processLine env n l c p s).2.trace →
      q ∈ s.trace ∨ env.fs.statExists q = false := by
  intro q hq
  unfold processLine at hq
  simp only [callBuild] at hq
  repeat' split at hq
  all_goals try exact Or.inl hq
  all_goals
    rename_i x1 o hNN hT hE x2 x3 s1 heqCB
  all_goals
    injection heqCB with hres hsess
  all_goals
    subst hsess
  all_goals
    rcases List.mem_append.mp hq with h | h
  all_goals try exact Or.inl h
  all_goals
    refine Or.inr ?_
  all_goals
    rw [List.mem_singleton.mp h, (NewNode_ok hNN).1, ← (NewNode_ok hNN).2]
  all_goals
    simpa using hE

theorem processLines_trace (env : Env) (n : Node) :
    ∀ (ls : List String) (c : Bool) (p : List Node) (s : Sess) (q : String),
      q ∈ (processLines env n ls c p s).2.trace →
      q ∈ s.trace ∨ env.fs.statExists q = false := by
  intro ls
  induction ls with
  | nil => intro c p s q hq; exact Or.inl hq
  | cons l t ih =>
    intro c p s q hq
    unfold processLines at hq
    rcases hr : processLine env n l c p s with ⟨r, s1⟩
    rcases r with e | ⟨c1, p1⟩ <;> rw [hr] at hq
    · exact processLine_trace env n l c p s q (by rw [hr]; exact hq)
    · rcases ih c1 p1 s1 q hq with h2 | h2
      · exact processLine_trace env n l c p s q (by rw [hr]; exact h2)
      · exact Or.inr h2

theorem processLines_cons (env : Env) (n : Node) (l : String) (t : List String)
    (c : Bool) (p : List Node) (s : Sess) :
    processLines env n (l :: t) c p s =
      match processLine env n l c p s with
      | (Except.error e, s1) => (Except.error e, s1)
      | (Except.ok (c1, p1), s1) => processLines env n t c1 p1 s1 := rfl

theorem processLines_append (env : Env) (n : Node) (l1 l2 : List String) :
    ∀ (c : Bool) (p : List Node) (s : Sess),
    processLines env n (l1 ++ l2) c p s =
      match processLines env n l1 c p s with
      | (Except.error e, s1) => (Except.error e, s1)
      | (Except.ok (c1, p1), s1) => processLines env n l2 c1 p1 s1 := by
  induction l1 with
  | nil => intro c p s; rfl
  | cons l t ih =>
    intro c p s
    rw [List.cons_append, processLines_cons, processLines_cons]
    rcases hr : processLine env n l c p s with ⟨r, s1⟩
    rcases r with e | ⟨c1, p1⟩
    · rfl
    · exact ih c1 p1 s1

/-- If the walker reaches line `l` of the record (the prefix `pre` was
processed without error) and `l`'s processing fails, the whole walk fails the
same way. -/
theorem RedoIfChange_line_error (fuel : Nat) (env : Env) (n : Node)
    (pre : List String) (l : String) (rest : List String) (c : Bool)
    (pend : List Node) (s0 s1 s2 : Sess) (e : RErr)
    (hc : s0.canceled = none)
    (hT : n.IsTarget = true) (hE : n.Exists = true)
    (hrl : env.fs.readLines (n.Dir ++ n.File ++ ".prereqs") = some (pre ++ l :: rest))
    (hpre : processLines env n pre false [] s0 = (.ok (c, pend), s1))
    (hline : processLine env n l c pend s1 = (.error e, s2)) :
    RedoIfChange (fuel + 1) env n s0 = (.error e, s2) := by
  have h5 : processLines env n (pre ++ l :: rest) false [] s0 = (Except.error e, s2) := by
    rw [processLines_append, hpre]
    show processLines env n (l :: rest) c pend s1 = (Except.error e, s2)
    rw [processLines_cons, hline]
  unfold RedoIfChange
  simp [hc, hT, hE, hrl, h5]

theorem processLine_drift (env : Env) (n : Node) (l : String) (c : Bool)
    (p : List Node) (s : Sess) (d h : String) (o : Node)
    (hsplit : splitTab l = [d, "ifchange", h])
    (ho : NewNode env.fs (n.Dir ++ d) = .ok o)
    (hT : o.IsTarget = true) (hE : o.Exists = true)
    (hh : Node.Hash env.fs o ≠ h) :
    processLine env n l c p s = (.error .hashDrift, s) := by
  simp [processLine, hsplit, ho, hT, hE, Node.HashChanged, bne_iff_ne, hh]

theorem processLine_short (env : Env) (n : Node) (l : String) (c : Bool)
    (p : List Node) (s : Sess) (hv : (splitTab l)[1]? = none) :
    processLine env n l c p s = (.error .panicIndex, s) := by
  simp [processLine, hv]

theorem processLine_nodigest_source (env : Env) (n : Node) (l : String)
    (c : Bool) (p : List Node) (s : Sess) (d : String) (o : Node)
    (hsplit : splitTab l = [d, "ifchange"])
    (ho : NewNode env.fs (n.Dir ++ d) = .ok o) (hT : o.IsTarget = false) :
    processLine env n l c p s = (.error .panicIndex, s) := by
  simp [processLine, hsplit, ho, hT]

theorem processLine_nodigest_target (env : Env) (n : Node) (l : String)
    (c : Bool) (p : List Node) (s : Sess) (d : String) (o : Node)
    (hsplit : splitTab l = [d, "ifchange"])
    (ho : NewNode env.fs (n.Dir ++ d) = .ok o) (hT : o.IsTarget = true)
    (hE : o.Exists = true) :
    processLine env n l c p s = (.error .panicIndex, s) := by
  simp [processLine, hsplit, ho, hT, hE]

/-- Claim C3: when the walk of an existing target `n` reaches an `ifchange`
line naming an existing target dependency whose current content hash differs
from the recorded digest, the walk fails with the hash-drift error, and
neither the dependency's recipe nor the parent's recipe is invoked (the build
trace contains neither path). -/
theorem walker_hash_drift (fuel : Nat) (env : Env) (n : Node)
    (pre : List String) (l : String) (rest : List String) (c : Bool)
    (pend : List Node) (s1 : Sess) (d h : String) (o : Node)
    (hT : n.IsTarget = true) (hE : n.Exists = true)
    (hfs : env.fs.statExists (n.Dir ++ n.File) = true)
    (hrl : env.fs.readLines (n.Dir ++ n.File ++ ".prereqs") = some (pre ++ l :: rest))
    (hpre : processLines env n pre false [] ⟨none, []⟩ = (.ok (c, pend), s1))
    (hsplit : splitTab l = [d, "ifchange", h])
    (ho : NewNode env.fs (n.Dir ++ d) = .ok o)
    (hoT : o.IsTarget = true) (hoE : o.Exists = true)
    (hh : Node.Hash env.fs o ≠ h) :
    RedoIfChange (fuel + 1) env n ⟨none, []⟩ = (.error .hashDrift, s1) ∧
    (n.Dir ++ n.File) ∉ s1.trace ∧ (n.Dir ++ d) ∉ s1.trace := by
  have hline := processLine_drift env n l c pend s1 d h o hsplit ho hoT hoE hh
  refine ⟨RedoIfChange_line_error fuel env n pre l rest c pend ⟨none, []⟩ s1 s1
      .hashDrift rfl hT hE hrl hpre hline, ?_, ?_⟩
  · intro hmem
    rcases processLines_trace env n pre false [] ⟨none, []⟩ (n.Dir ++ n.File)
        (by rw [hpre]; exact hmem) with h0 | h0
    · exact absurd h0 (List.not_mem_nil _)
    · rw [hfs] at h0
      exact absurd h0 (by decide)
  · intro hmem
    rcases processLines_trace env n pre false [] ⟨none, []⟩ (n.Dir ++ d)
        (by rw [hpre]; exact hmem) with h0 | h0
    · exact absurd h0 (List.not_mem_nil _)
    · have hex : env.fs.statExists (n.Dir ++ d) = true := by
        rw [← (NewNode_ok ho).2]
        exact hoE
      rw [hex] at h0
      exact absurd h0 (by decide)

/-- Claim C10 (amended): the walker's line parsing is partial.  When the walk
of an existing target reaches a record line whose tab-split has fewer than
two fields (for example a blank line), or an `ifchange` line with no third
digest field whose dependency resolves to a source or to an existing target,
`RedoIfChange` performs an out-of-bounds index access (a Go panic) instead of
returning a format error.  (An `ifchange` line with no digest naming a
missing target does not reach the index access: it schedules the build.) -/
theorem walker_parse_partial :
    (∀ (fuel : Nat) (env : Env) (n : Node) (pre : List String) (l : String)
       (rest : List String) (c : Bool) (pend : List Node) (s1 : Sess),
       n.IsTarget = true → n.Exists = true →
       env.fs.readLines (n.Dir ++ n.File ++ ".prereqs") = some (pre ++ l :: rest) →
       processLines env n pre false [] ⟨none, []⟩ = (.ok (c, pend), s1) →
       (splitTab l)[1]? = none →
       RedoIfChange (fuel + 1) env n ⟨none, []⟩ = (.error .panicIndex, s1)) ∧
    (∀ (fuel : Nat) (env : Env) (n : Node) (pre : List String) (l : String)
       (rest : List String) (c : Bool) (pend : List Node) (s1 : Sess)
       (d : String) (o : Node),
       n.IsTarget = true → n.Exists = true →
       env.fs.readLines (n.Dir ++ n.File ++ ".prereqs") = some (pre ++ l :: rest) →
       processLines env n pre false [] ⟨none, []⟩ = (.ok (c, pend), s1) →
       splitTab l = [d, "ifchange"] →
       NewNode env.fs (n.Dir ++ d) = .ok o → o.IsTarget = false →
       RedoIfChange (fuel + 1) env n ⟨none, []⟩ = (.error .panicIndex, s1)) ∧
    (∀ (fuel : Nat) (env : Env) (n : Node) (pre : List String) (l : String)
       (rest : List String) (c : Bool) (pend : List Node) (s1 : Sess)
       (d : String) (o : Node),
       n.IsTarget = true → n.Exists = true →
       env.fs.readLines (n.Dir ++ n.File ++ ".prereqs") = some (pre ++ l :: rest) →
       processLines env n pre false [] ⟨none, []⟩ = (.ok (c, pend), s1) →
       splitTab l = [d, "ifchange"] →
       NewNode env.fs (n.Dir ++ d) = .ok o → o.IsTarget = true → o.Exists = true →
       RedoIfChange (fuel + 1) env n ⟨none, []⟩ = (.error .panicIndex, s1)) := by
  refine ⟨?_, ?_, ?_⟩
  · intro fuel env n pre l rest c pend s1 hT hE hrl hpre hv
    exact RedoIfChange_line_error fuel env n pre l rest c pend ⟨none, []⟩ s1 s1
      .panicIndex rfl hT hE hrl hpre (processLine_short env n l c pend s1 hv)
  · intro fuel env n pre l rest c pend s1 d o hT hE hrl hpre hsplit ho hoT
    exact RedoIfChange_line_error fuel env n pre l rest c pend ⟨none, []⟩ s1 s1
      .panicIndex rfl hT hE hrl hpre
      (processLine_nodigest_source env n l c pend s1 d o hsplit ho hoT)
  · intro fuel env n pre l rest c pend s1 d o hT hE hrl hpre hsplit ho hoT hoE
    exact RedoIfChange_line_error fuel env n pre l rest c pend ⟨none, []⟩ s1 s1
      .panicIndex rfl hT hE hrl hpre
      (processLine_nodigest_target env n l c pend s1 d o hsplit ho hoT hoE)

/-- Claim C10, witness for the amended theorem: a record consisting of one
blank line makes the walk of `q` end in the modelled index panic. -/
theorem walker_parse_partial_witness :
    RedoIfChange 1 w10env w10q ⟨none, []⟩ = (.error .panicIndex, ⟨none, []⟩) :=
  walker_parse_partial.1 0 w10env w10q [] "" [] false [] ⟨none, []⟩
    (by decide) (by decide) (by decide) (by decide) (by decide)

/-- Claim C10, counterexample to the unamended claim: the record of `p`
contains the `ifchange` line `x\tifchange` with no third digest field, yet
the walk does not perform any out-of-bounds access: `x` is a missing target,
so the walker schedules its build, and the walk completes by rebuilding `x`
and then `p`. -/
theorem walker_parse_no_panic_on_missing_target :
    RedoIfChange 1 c10env c10p ⟨none, []⟩ = (.ok true, ⟨none, ["x", "p"]⟩) := by
  decide

/-- Claim C1 (evaluated at the failing input): target `p` depends on existing
target `t` whose recorded hash matches, so a sub-walk on `t` is scheduled;
`t`'s own walk rebuilds (the sub-walk returns `changed = true`, and the trace
shows `t` was built), yet the parent's walk returns `changed = false` and `p`
never appears in the build trace: the sub-walk's `changed` result is
discarded at deps.go:149, so the parent's recipe is not invoked. -/
theorem subwalk_change_discarded :
    NewNode c1fs "p" = .ok c1p ∧ NewNode c1fs "t" = .ok c1t ∧
    RedoIfChange 2 c1env c1t ⟨none, []⟩ = (.ok true, ⟨none, ["t"]⟩) ∧
    RedoIfChange 3 c1env c1p ⟨none, []⟩ = (.ok false, ⟨none, ["t"]⟩) := by
  decide

theorem cancelCause_trace (e : RErr) (s : Sess) :
    (cancelCause e s).trace = s.trace := by
  unfold cancelCause
  rcases h : s.canceled with _ | e1 <;> rfl

theorem runPendingWith_cons (walk : Node → Sess → Except RErr Bool × Sess)
    (o : Node) (rest : List Node) (s : Sess) :
    runPendingWith walk (o :: rest) s =
      runPendingWith walk rest
        (match (walk o s).1 with
         | .error e => cancelCause e (walk o s).2
         | .ok _ => (walk o s).2) := rfl

theorem redoLoop_cons (fuel : Nat) (env : Env) (arg : String)
    (rest : List String) (s : Sess) :
    redoLoop fuel env (arg :: rest) s =
      match NewNode env.fs arg with
      | Except.error e => cancelCause e s
      | Except.ok n =>
        if !n.IsTarget then cancelCause (.sourceNotTarget arg) s
        else
          redoLoop fuel env rest
            (match (RedoIfChange fuel env n s).1 with
             | Except.error e => cancelCause e (RedoIfChange fuel env n s).2
             | Except.ok _ => (RedoIfChange fuel env n s).2) := rfl

/-- Processing a prefix of arguments that all resolve to targets runs exactly
the freshness walker on each resolved node in sequence, folding walker errors
into the cancellation cause — the same behaviour as the sub-walk join
`runPendingWith` — and then continues with the remaining arguments. -/
theorem redoLoop_targets_seq (fuel : Nat) (env : Env) :
    ∀ (pre : List String) (nodes : List Node) (tail : List String) (s : Sess),
    List.Forall₂ (fun a n => NewNode env.fs a = .ok n ∧ n.IsTarget = true) pre nodes →
    redoLoop fuel env (pre ++ tail) s =
      redoLoop fuel env tail
        (runPendingWith (fun o st => RedoIfChange fuel env o st) nodes s) := by
  intro pre nodes tail s h
  induction h generalizing s with
  | nil => rfl
  | cons hR htail ih =>
    obtain ⟨ha, hT⟩ := hR
    show redoLoop fuel env (_ :: (_ ++ tail)) s = _
    rw [redoLoop_cons, ha]
    simp only [hT, Bool.not_true, Bool.false_eq_true, if_false]
    rw [runPendingWith_cons]
    exact ih _

/-- Claim C2 (amended): for every invocation under the program name `redo`
with a list of target arguments, each argument is resolved and required to be
a target, and the dispatch is exactly the freshness walkers run in sequence
(errors folded into the session cancellation cause) with exit code 0 — the
dispatcher invokes no recipe runner of its own.  A source argument or a
resolution failure, after any prefix of target arguments, sets the
cancellation cause and stops the argument loop at that point. -/
theorem redo_dispatch_walker_only :
    (∀ (fuel : Nat) (env : Env) (args : List String) (nodes : List Node) (s : Sess),
       List.Forall₂ (fun a n => NewNode env.fs a = .ok n ∧ n.IsTarget = true)
         args nodes →
       redoMain fuel env args s =
         (0, runPendingWith (fun o st => RedoIfChange fuel env o st) nodes s)) ∧
    (∀ (fuel : Nat) (env : Env) (pre : List String) (nodes : List Node)
       (arg : String) (rest : List String) (n : Node) (s : Sess),
       List.Forall₂ (fun a n => NewNode env.fs a = .ok n ∧ n.IsTarget = true)
         pre nodes →
       NewNode env.fs arg = .ok n → n.IsTarget = false →
       redoMain fuel env (pre ++ arg :: rest) s =
         (0, cancelCause (.sourceNotTarget arg)
           (runPendingWith (fun o st => RedoIfChange fuel env o st) nodes s))) ∧
    (∀ (fuel : Nat) (env : Env) (pre : List String) (nodes : List Node)
       (arg : String) (rest : List String) (e : RErr) (s : Sess),
       List.Forall₂ (fun a n => NewNode env.fs a = .ok n ∧ n.IsTarget = true)
         pre nodes →
       NewNode env.fs arg = .error e →
       redoMain fuel env (pre ++ arg :: rest) s =
         (0, cancelCause e
           (runPendingWith (fun o st => RedoIfChange fuel env o st) nodes s))) := by
  refine ⟨?_, ?_, ?_⟩
  · intro fuel env args nodes s h
    show (0, redoLoop fuel env args s) = _
    rw [show args = args ++ [] by simp, redoLoop_targets_seq fuel env args nodes [] s h]
    rfl
  · intro fuel env pre nodes arg rest n s h hn hT
    show (0, redoLoop fuel env (pre ++ arg :: rest) s) = _
    rw [redoLoop_targets_seq fuel env pre nodes (arg :: rest) s h, redoLoop_cons, hn]
    simp [hT]
  · intro fuel env pre nodes arg rest e s h hn
    show (0, redoLoop fuel env (pre ++ arg :: rest) s) = _
    rw [redoLoop_targets_seq fuel env pre nodes (arg :: rest) s h, redoLoop_cons, hn]

/-- Claim C2, witness for the amended theorem: a two-argument invocation on
targets; the dispatch is exactly the two walkers run in sequence, with exit
code 0. -/
theorem redo_dispatch_walker_only_witness :
    redoMain 2 c2env ["t", "t"] ⟨none, []⟩ =
      (0, runPendingWith (fun o st => RedoIfChange 2 c2env o st) [c2t, c2t]
        ⟨none, []⟩) :=
  redo_dispatch_walker_only.1 2 c2env ["t", "t"] [c2t, c2t] ⟨none, []⟩
    (List.Forall₂.cons ⟨by decide, by decide⟩
      (List.Forall₂.cons ⟨by decide, by decide⟩ List.Forall₂.nil))

/-- Claim C2, counterexample to the claim as stated: for the up-to-date
target `t`, the `redo` dispatch runs the walker (which reports no change) and
then invokes no recipe runner at all — the final build trace is empty,
contradicting "the recipe runner is run unconditionally". -/
theorem redo_no_unconditional_build :
    NewNode c2fs "t" = .ok c2t ∧
    redoMain 2 c2env ["t"] ⟨none, []⟩ = (0, ⟨none, []⟩) := by
  decide

/-- Claim C7 (evaluated at the failing input): under the program name `redo`,
an argument that is a source (a resolution-level fatal error per the spec)
only sets the session cancellation cause; the later `main` (redo.go:200-221)
never inspects the cause on this branch and falls through to `return`, so the
process exits with code 0 instead of non-zero. -/
theorem redo_exit_zero_on_error :
    NewNode c7fs "s" = .ok ⟨"", "s", "", false, true, false, false⟩ ∧
    redoMain 1 c7env ["s"] ⟨none, []⟩ = (0, ⟨some (.sourceNotTarget "s"), []⟩) := by
  decide

/-- Claim C4: when the recipe exits successfully but wrote both to the stdout
sink and to the `$3` file, `build` fails with the double-write error and
performs no rename, leaving any pre-existing artifact in place. -/
theorem build_double_write (fs : FS) (t : Int) (r : RecipeBehavior) (n : Node)
    (dn : Node) (hlock : Lock fs t n = false)
    (hdn : NewNode fs (n.Dir ++ n.DoScript) = .ok dn)
    (hexit : r.exitOk = true) (h3 : r.arg3Created = true)
    (hstd : 0 < r.stdoutSize) :
    (build fs t r n).result = .error .doubleWrite ∧
    (build fs t r n).commit = .noRename := by
  simp [build, hlock, hdn, hexit, h3, hstd]

/-- Claim C4, witness: a never-built target whose recipe writes both
channels. -/
theorem build_double_write_witness :
    (build w4fs 0 ⟨true, 2, true⟩ w4n).result = .error .doubleWrite ∧
    (build w4fs 0 ⟨true, 2, true⟩ w4n).commit = .noRename :=
  build_double_write w4fs 0 ⟨true, 2, true⟩ w4n w4dn (by decide) (by decide)
    (by decide) (by decide) (by decide)

/-- Claim C5: whenever `build` writes a prerequisite record, its first line
is the `ifchange` entry for the resolved recipe script itself, keyed by the
recipe's own hash; and when the target uses a default recipe, the second line
is the `ifcreate` entry for the target-specific recipe filename `<file>.do`. -/
theorem build_record_head (fs : FS) (t : Int) (r : RecipeBehavior) (n : Node)
    (l : List String) (hok : (build fs t r n).result = .ok ())
    (hrec : (build fs t r n).record = some l) :
    ∃ dn, NewNode fs (n.Dir ++ n.DoScript) = .ok dn ∧
      dn.Dir ++ dn.File = n.Dir ++ n.DoScript ∧
      l[0]? = some (dn.File ++ "\tifchange\t" ++ Node.Hash fs dn) ∧
      (n.UsesDefaultDo = true → l[1]? = some (n.File ++ ".do\tifcreate")) := by
  cases hl : Lock fs t n
  case true =>
    rw [show (build fs t r n).record = none by simp [build, hl]] at hrec
    exact absurd hrec (by simp)
  case false =>
    cases hdn : NewNode fs (n.Dir ++ n.DoScript)
    case error e =>
      rw [show (build fs t r n).result = .error .ioError by simp [build, hl, hdn]] at hok
      exact absurd hok (by simp)
    case ok dn =>
      have hrec2 : (build fs t r n).record =
          some (if n.UsesDefaultDo then
            [dn.File ++ "\tifchange\t" ++ Node.Hash fs dn, n.File ++ ".do\tifcreate"]
          else [dn.File ++ "\tifchange\t" ++ Node.Hash fs dn]) := by
        cases hex : r.exitOk <;> cases ha : r.arg3Created <;>
          cases hs : decide (0 < r.stdoutSize) <;>
          simp [build, hl, hdn, hex, ha, hs]
      rw [hrec] at hrec2
      obtain rfl := Option.some.inj hrec2
      refine ⟨dn, rfl, (NewNode_ok hdn).1, ?_, ?_⟩
      · cases hud : n.UsesDefaultDo <;> simp [hud]
      · intro hud
        simp [hud]

/-- Claim C5, witness: a default-recipe target; the record starts with the
recipe's own `ifchange` line and then the `ifcreate` line for `f.txt.do`. -/
theorem build_record_head_witness :
    ∃ dn, NewNode w5fs ("" ++ "default.txt.do") = .ok dn ∧
      dn.Dir ++ dn.File = "" ++ "default.txt.do" ∧
      ["default.txt.do\tifchange\thd", "f.txt.do\tifcreate"][0]? =
        some (dn.File ++ "\tifchange\t" ++ Node.Hash w5fs dn) ∧
      (w5n.UsesDefaultDo = true →
        ["default.txt.do\tifchange\thd", "f.txt.do\tifcreate"][1]? =
          some (w5n.File ++ ".do\tifcreate")) :=
  build_record_head w5fs 0 ⟨true, 3, false⟩ w5n
    ["default.txt.do\tifchange\thd", "f.txt.do\tifcreate"] (by decide) (by decide)

/-- Claim C6: within one session, `Lock` reports `done = true` without
rebuilding both when the target's lock file exists (the poll loop exits only
once it disappears) and when the target's prereqs file is stamped after
`RedoTreeTime`; and when `Lock` reports done, `build` does no work at all: no
record is written, no recipe is spawned, no rename happens. -/
theorem lock_session_idempotent :
    (∀ (fs : FS) (t : Int) (n : Node),
       fs.statExists (n.Dir ++ n.File ++ ".lock") = true → Lock fs t n = true) ∧
    (∀ (fs : FS) (t : Int) (n : Node),
       fs.statExists (n.Dir ++ n.File ++ ".lock") = false →
       fs.statExists (n.Dir ++ n.File ++ ".prereqs") = true →
       t < fs.statMtime (n.Dir ++ n.File ++ ".prereqs") →
       Lock fs t n = true) ∧
    (∀ (fs : FS) (t : Int) (r : RecipeBehavior) (n : Node),
       Lock fs t n = true →
       build fs t r n = ⟨.ok (), false, none, .noRename⟩) := by
  refine ⟨?_, ?_, ?_⟩
  · intro fs t n h
    simp [Lock, h]
  · intro fs t n h1 h2 h3
    simp [Lock, h1, h2, h3]
  · intro fs t r n h
    simp [build, h]

/-- Claim C6, witness: a locked target is reported done and `build` does no
work on it. -/
theorem lock_session_idempotent_witness :
    Lock w6fs 0 w6n = true ∧
    build w6fs 0 ⟨true, 0, false⟩ w6n = ⟨.ok (), false, none, .noRename⟩ :=
  ⟨lock_session_idempotent.1 w6fs 0 w6n (by decide),
   lock_session_idempotent.2.2 w6fs 0 ⟨true, 0, false⟩ w6n
     (lock_session_idempotent.1 w6fs 0 w6n (by decide))⟩

theorem lookup_eq_of_perm {α β : Type} [BEq α] [LawfulBEq α]
    {l1 l2 : List (α × β)} (h : l1.Perm l2) :
    (l1.map Prod.fst).Nodup → ∀ a, l1.lookup a = l2.lookup a := by
  induction h with
  | nil => intro _ a; rfl
  | cons x h1 ih =>
    intro nd a
    rcases x with ⟨k, v⟩
    cases hk : a == k <;> simp only [List.lookup, hk]
    exact ih (List.Nodup.of_cons nd) a
  | swap x y t =>
    intro nd a
    rcases x with ⟨k1, v1⟩
    rcases y with ⟨k2, v2⟩
    have hne : k2 ≠ k1 := by
      have hnm := (List.nodup_cons.mp nd).1
      intro he
      exact hnm (by rw [he]; exact List.mem_cons_self _ _)
    cases h1 : a == k1 <;> cases h2 : a == k2
    · simp only [List.lookup, h1, h2]
    · simp only [List.lookup, h1, h2]
    · simp only [List.lookup, h1, h2]
    · exact absurd ((eq_of_beq h2).symm.trans (eq_of_beq h1)) hne
  | trans h1 h2 ih1 ih2 =>
    intro nd a
    rw [ih1 nd a, ih2 ((h1.map Prod.fst).nodup nd) a]

/-- Claim C8: the directory digest depends only on the set of
`(relative_path, file_contents)` pairs of regular files: if two walks yield
the same pairs up to order (paths being distinct, as they are under one
root), the digest input — sorted `(path, hash)` pairs concatenated as
`path_bytes || hash_bytes` — is identical, so reordering the walk, touching
mtimes, or adding/removing non-regular entries cannot change the sum. -/
theorem md5SumDir_set_invariant (md5 : List Nat → List Nat)
    (e1 e2 : List Entry)
    (hperm : ((walkFiles e1).map (fun en => (en.path, en.contents))).Perm
      ((walkFiles e2).map (fun en => (en.path, en.contents))))
    (hnd : ((walkFiles e1).map (fun en => en.path)).Nodup) :
    MD5SumDir md5 e1 = MD5SumDir md5 e2 := by
  have h1 : md5All md5 e1 =
      ((walkFiles e1).map (fun en => (en.path, en.contents))).map
        (fun pc => (pc.1, md5 pc.2)) := by
    rw [List.map_map]
    rfl
  have h2 : md5All md5 e2 =
      ((walkFiles e2).map (fun en => (en.path, en.contents))).map
        (fun pc => (pc.1, md5 pc.2)) := by
    rw [List.map_map]
    rfl
  have hms : (md5All md5 e1).Perm (md5All md5 e2) := by
    rw [h1, h2]
    exact hperm.map _
  have hkeys1 : (md5All md5 e1).map Prod.fst =
      (walkFiles e1).map (fun en => en.path) := by
    show ((walkFiles e1).map (fun en => (en.path, md5 en.contents))).map Prod.fst = _
    rw [List.map_map]
    rfl
  have hnd1 : ((md5All md5 e1).map Prod.fst).Nodup := by
    rw [hkeys1]
    exact hnd
  have hkeysperm : ((md5All md5 e1).map Prod.fst).Perm
      ((md5All md5 e2).map Prod.fst) := hms.map _
  have hsorted :
      List.insertionSort (fun a b => a ≤ b) ((md5All md5 e1).map Prod.fst) =
      List.insertionSort (fun a b => a ≤ b) ((md5All md5 e2).map Prod.fst) := by
    refine List.eq_of_perm_of_sorted
      ((List.perm_insertionSort _ _).trans
        (hkeysperm.trans (List.perm_insertionSort _ _).symm))
      (List.sorted_insertionSort _ _) (List.sorted_insertionSort _ _)
  have hlk := lookup_eq_of_perm hms hnd1
  have hf : (fun (acc : List Nat) p =>
        acc ++ strBytes p ++ ((md5All md5 e1).lookup p).getD []) =
      (fun (acc : List Nat) p =>
        acc ++ strBytes p ++ ((md5All md5 e2).lookup p).getD []) := by
    funext acc p
    rw [hlk p]
  show md5 (List.foldl _ [] (List.insertionSort _ ((md5All md5 e1).map Prod.fst))) =
    md5 (List.foldl _ [] (List.insertionSort _ ((md5All md5 e2).map Prod.fst)))
  rw [hsorted, hf]

/-- Claim C8, witness: same regular `(path, contents)` set, different walk
order, different mtimes, one extra non-regular entry — identical digest. -/
theorem md5SumDir_set_invariant_witness :
    MD5SumDir (fun l => l) w8a = MD5SumDir (fun l => l) w8b :=
  md5SumDir_set_invariant (fun l => l) w8a w8b (by decide) (by decide)

/-- Claim C3, witness: `p` records `t` with hash `old` while `t`'s current
hash is `new`; the walk fails with hash drift and the build trace stays
empty. -/
theorem walker_hash_drift_witness :
    RedoIfChange 1 w3env w3p ⟨none, []⟩ = (.error .hashDrift, ⟨none, []⟩) ∧
    (w3p.Dir ++ w3p.File) ∉ (Sess.mk none []).trace ∧
    (w3p.Dir ++ "t") ∉ (Sess.mk none []).trace :=
  walker_hash_drift 0 w3env w3p [] "t\tifchange\told" [] false [] ⟨none, []⟩
    "t" "old" w3t (by decide) (by decide) (by decide) (by decide) (by decide)
    (by decide) (by decide) (by decide) (by decide) (by decide)
